import Mathlib

/-!
Verification development for the rimworld-modbridge repository.

The Python sources are shallowly embedded as pure Lean functions.
Effectful boundaries (HTTP fetches, subprocess invocation, the filesystem)
are passed in explicitly as function-valued parameters, so every embedded
operation is a total, executable function of its inputs:

* `src/main.py` — `SteamCollectionToRimPy.convert_collection` and its
  helpers (`get_mod_info`, `extract_package_id`, `create_rimpy_xml`,
  `ConversionStats`) become the `ModBridge` pipeline below.
* `src/steam_handler.py` — `SteamHandler.download_mod`,
  `_find_mod_in_alternate_locations` and `extract_package_id` become the
  `ModBridge.SteamHandler` namespace.
* `src/xml_processor.py` — `XmlProcessor.extract_package_id` becomes the
  `ModBridge.XmlProcessor` namespace.
* `src/database.py` — `ModDatabase.add_mod` / `get_package_id` become the
  `ModBridge.Database` namespace.
-/

namespace ModBridge

/-- Python truthiness of an optional string (`None` and the empty string are
falsy): used to embed checks such as `if cached_package_id:` in
`main.py` and `if elem.text:` in the manifest readers. -/
def truthyStrOpt (o : Option String) : Bool := o.getD "" != ""

/-- Python `str.lower()` restricted to the character-wise lowering the
sources rely on. -/
def pyLower (s : String) : String := String.mk (s.data.map Char.toLower)

/-- Python `str.strip()`: drop whitespace from both ends. -/
def pyStrip (s : String) : String :=
  String.mk (((s.data.dropWhile Char.isWhitespace).reverse.dropWhile Char.isWhitespace).reverse)

/-- One child element of a parsed XML element tree: tag name and optional
text content (`elem.tag` / `elem.text` in ElementTree, where `text` is
`None` for an empty element). -/
structure XElem where
  tag : String
  text : Option String
deriving DecidableEq, Repr

/-- Outcome of locating and parsing a mod's `About.xml`: the file was not
found anywhere, it was found but failed to parse (`ET.ParseError` or any
other exception), or it parsed with the given list of root children. -/
inductive ManifestFile where
  | missing
  | unparsable
  | parsed (root : List XElem)
deriving DecidableEq, Repr

/-- The effectful environment a single pipeline run observes, one field per
external interaction of `main.py`:
`fetchOk mod_id` — the Workshop page fetch in `get_mod_info` succeeded;
`titleText mod_id` — text of the `workshopItemTitle` element when present;
`downloadOk mod_id` — `download_mod_with_steamcmd` returned `True`;
`manifest mod_id` — the `About.xml` of the downloaded mod. -/
structure PipelineEnv where
  fetchOk : String → Bool
  titleText : String → Option String
  downloadOk : String → Bool
  manifest : String → ManifestFile

/-- The deterministic fallback package identifier
`f"steam.{mod_id}".lower()` used in `main.py` whenever no real
package id can be resolved. -/
def fallbackId (mod_id : String) : String := pyLower ("steam." ++ mod_id)

/-- A mod entry as built by `SteamCollectionToRimPy.get_mod_info`
(`{'id': ..., 'name': ..., 'packageId': ...}`). -/
structure ModEntry where
  id : String
  name : String
  packageId : String
deriving DecidableEq, Repr

/-- `SteamCollectionToRimPy.get_mod_info` (main.py:340-362): fetch the
Workshop page; on success the name is the trimmed title (or an
`Unknown Mod` placeholder when the title element is absent), on any
exception the name is a `Mod` placeholder; the packageId is always the
`steam.` fallback.  The Python `except Exception` arm makes the function
total, which the embedding reflects by returning a plain record for every
environment. -/
def get_mod_info (env : PipelineEnv) (mod_id : String) : ModEntry :=
  if env.fetchOk mod_id then
    { id := mod_id,
      name :=
        match env.titleText mod_id with
        | some t => pyStrip t
        | none => "Unknown Mod " ++ mod_id,
      packageId := pyLower ("steam." ++ mod_id) }
  else
    { id := mod_id,
      name := "Mod " ++ mod_id,
      packageId := pyLower ("steam." ++ mod_id) }

namespace Main

/-- `SteamCollectionToRimPy.extract_package_id` (main.py:423-441): if
`About.xml` is missing, unparsable, has no direct child with the exact tag
`packageId`, or that child's text is falsy, return the `steam.` fallback;
otherwise return the text stripped and lowercased. -/
def extract_package_id (env : PipelineEnv) (mod_id : String) : String :=
  match env.manifest mod_id with
  | .missing => pyLower ("steam." ++ mod_id)
  | .unparsable => pyLower ("steam." ++ mod_id)
  | .parsed root =>
    match root.find? (fun e => e.tag == "packageId") with
    | some e =>
      if truthyStrOpt e.text then pyLower (pyStrip (e.text.getD ""))
      else pyLower ("steam." ++ mod_id)
    | none => pyLower ("steam." ++ mod_id)

/-- True exactly when `extract_package_id` falls back because no usable
`packageId` was found: manifest missing, unparsable, no `packageId` child,
or the child's text falsy. -/
def manifestMissing (env : PipelineEnv) (mod_id : String) : Bool :=
  match env.manifest mod_id with
  | .missing => true
  | .unparsable => true
  | .parsed root =>
    match root.find? (fun e => e.tag == "packageId") with
    | some e => !(truthyStrOpt e.text)
    | none => true

end Main

/-- `ConversionStats` (main.py:126-140). -/
structure Stats where
  total_mods : Nat
  successful : Nat
  failed : Nat
  cached : Nat
  current : Nat
deriving DecidableEq, Repr

/-- The mutable state of one `convert_collection` run: the statistics, the
`mod_cache` dictionary, the accumulated `mods` list, and (for bookkeeping)
the list of mod ids for which `download_mod_with_steamcmd` was invoked. -/
structure RunState where
  stats : Stats
  cache : String → Option String
  mods : List ModEntry
  downloaded : List String

/-- One iteration of the `for i, mod_id in enumerate(mod_ids, 1)` loop of
`convert_collection` (main.py:487-527): set `current`; on a truthy cache
hit append the cached entry and bump `cached`/`successful`; otherwise
invoke the downloader — on success extract the package id, write it
through to the cache and bump `successful`, on failure use the `steam.`
fallback and bump `failed`.  Every branch appends exactly one entry. -/
def processMod (env : PipelineEnv) (i : Nat) (mod_id : String) (st : RunState) : RunState :=
  if truthyStrOpt (st.cache mod_id) then
    { st with
      stats := { st.stats with
        current := i,
        cached := st.stats.cached + 1,
        successful := st.stats.successful + 1 },
      mods := st.mods ++
        [{ get_mod_info env mod_id with packageId := (st.cache mod_id).getD "" }] }
  else if env.downloadOk mod_id then
    { st with
      stats := { st.stats with current := i, successful := st.stats.successful + 1 },
      cache := fun k =>
        if k == mod_id then some (Main.extract_package_id env mod_id) else st.cache k,
      downloaded := st.downloaded ++ [mod_id],
      mods := st.mods ++
        [{ get_mod_info env mod_id with packageId := Main.extract_package_id env mod_id }] }
  else
    { st with
      stats := { st.stats with current := i, failed := st.stats.failed + 1 },
      downloaded := st.downloaded ++ [mod_id],
      mods := st.mods ++
        [{ get_mod_info env mod_id with packageId := pyLower ("steam." ++ mod_id) }] }

/-- Run the conversion loop over the remaining mod ids, `i` being the
1-based index of the next mod. -/
def runFrom (env : PipelineEnv) (st : RunState) (i : Nat) : List String → RunState
  | [] => st
  | m :: ms => runFrom env (processMod env i m st) (i + 1) ms

/-- The state of `convert_collection` just before the loop: statistics
reset with `total_mods = len(mod_ids)`, the pre-run cache, empty `mods`. -/
def initState (cache0 : String → Option String) (mod_ids : List String) : RunState :=
  { stats := { total_mods := mod_ids.length, successful := 0, failed := 0,
               cached := 0, current := 0 },
    cache := cache0,
    mods := [],
    downloaded := [] }

/-- The whole resolution loop of `convert_collection` for a fetched
collection `mod_ids` and pre-run cache `cache0`. -/
def runPipeline (env : PipelineEnv) (cache0 : String → Option String)
    (mod_ids : List String) : RunState :=
  runFrom env (initState cache0 mod_ids) 1 mod_ids

/-- The run state observed after the first `k` loop iterations (the
moments the `stats_callback` fires). -/
def midState (env : PipelineEnv) (cache0 : String → Option String)
    (mod_ids : List String) (k : Nat) : RunState :=
  runFrom env (initState cache0 mod_ids) 1 (mod_ids.take k)

/-- The document built by `create_rimpy_xml` (main.py:443-466):
`ModsConfigData` with a `version` child, an `activeMods` list and a
`knownExpansions` list, each `li` text kept in document order. -/
structure RimPyDoc where
  version : String
  activeMods : List String
  knownExpansions : List String
deriving DecidableEq, Repr

/-- The four known-expansion entries hardcoded in `create_rimpy_xml`. -/
def expansions : List String :=
  ["ludeon.rimworld.royalty", "ludeon.rimworld.ideology",
   "ludeon.rimworld.biotech", "ludeon.rimworld.anomaly"]

/-- `SteamCollectionToRimPy.create_rimpy_xml` (main.py:443-466): version
`1.5`; `activeMods` starts with `ludeon.rimworld` then one `li` per mod's
packageId in order; `knownExpansions` holds the four fixed expansions. -/
def create_rimpy_xml (mods : List ModEntry) : RimPyDoc :=
  { version := "1.5",
    activeMods := "ludeon.rimworld" :: mods.map (fun m => m.packageId),
    knownExpansions := expansions }

/-- All `li` entries of the document in document order (`activeMods`
children followed by `knownExpansions` children). -/
def docEntries (d : RimPyDoc) : List String := d.activeMods ++ d.knownExpansions

/-- The id recorded in a mod entry is always the processed workshop id. -/
theorem get_mod_info_id (env : PipelineEnv) (mod_id : String) :
    (get_mod_info env mod_id).id = mod_id := by
  unfold get_mod_info
  split <;> rfl

/-- Each loop iteration appends exactly one entry, carrying the processed
workshop id. -/
theorem processMod_mods_map (env : PipelineEnv) (i : Nat) (m : String) (st : RunState) :
    (processMod env i m st).mods.map (fun e => e.id)
      = st.mods.map (fun e => e.id) ++ [m] := by
  unfold processMod
  split
  · simp [get_mod_info_id]
  · split <;> simp [get_mod_info_id]

/-- The ids accumulated by the loop are the initial ids followed by the
processed mod ids, in order. -/
theorem runFrom_mods_map (env : PipelineEnv) :
    ∀ (ms : List String) (st : RunState) (i : Nat),
      (runFrom env st i ms).mods.map (fun e => e.id)
        = st.mods.map (fun e => e.id) ++ ms := by
  intro ms
  induction ms with
  | nil => intro st i; simp [runFrom]
  | cons m ms ih =>
    intro st i
    rw [runFrom, ih, processMod_mods_map]
    simp

/-- Claim C1: for every fetched collection of N mod identifiers, a pipeline
run with no cancellation produces a mod list with exactly N mod entries —
one per input workshop id, in the original collection order — regardless
of how many mods failed to download or had no manifest
(`convert_collection`, main.py:468-544). -/
theorem pipeline_output_complete (env : PipelineEnv)
    (cache0 : String → Option String) (mod_ids : List String) :
    (runPipeline env cache0 mod_ids).mods.map (fun e => e.id) = mod_ids ∧
    (runPipeline env cache0 mod_ids).mods.length = mod_ids.length := by
  have h := runFrom_mods_map env mod_ids (initState cache0 mod_ids) 1
  have h2 : (runPipeline env cache0 mod_ids).mods.map (fun e => e.id) = mod_ids := by
    rw [runPipeline, h]
    simp [initState]
  refine ⟨h2, ?_⟩
  have h3 := congrArg List.length h2
  simpa using h3

/-- Claim C3: for every input list of resolved package ids, the written
document has the fixed schema version `1.5`, and its entries in document
order are `ludeon.rimworld`, then the given package ids in the given
order, then the four fixed known-expansion package ids, appended
unconditionally (`create_rimpy_xml`, main.py:443-466). -/
theorem modlist_document_shape (mods : List ModEntry) :
    (create_rimpy_xml mods).version = "1.5" ∧
    (create_rimpy_xml mods).activeMods
      = "ludeon.rimworld" :: mods.map (fun m => m.packageId) ∧
    docEntries (create_rimpy_xml mods)
      = "ludeon.rimworld" ::
          (mods.map (fun m => m.packageId)
            ++ ["ludeon.rimworld.royalty", "ludeon.rimworld.ideology",
                "ludeon.rimworld.biotech", "ludeon.rimworld.anomaly"]) := by
  refine ⟨rfl, rfl, ?_⟩
  simp [docEntries, create_rimpy_xml, expansions]

/-- Outcome of a whole `convert_collection` call (main.py:468-544):
`mods` is `some` of the returned list when the `create_rimpy_xml` write
succeeded and `none` when the write raised (the exception propagates);
`cleanupRan` records whether the `finally` block deleted the temporary
workshop directory.  `writeOk` stands for whether `tree.write` succeeded,
`tempDirStillExists` for the `os.path.exists(self.temp_workshop_path)`
guard of the `finally` block. -/
structure ConvertOutcome where
  mods : Option (List ModEntry)
  cleanupRan : Bool
deriving DecidableEq, Repr

/-- `convert_collection`: run the loop, attempt the write inside `try`,
then execute the `finally` cleanup unconditionally. -/
def convert_collection (env : PipelineEnv) (cache0 : String → Option String)
    (mod_ids : List String) (writeOk : Bool) (tempDirStillExists : Bool) : ConvertOutcome :=
  let st := runFrom env (initState cache0 mod_ids) 1 mod_ids
  { mods := if writeOk then some st.mods else none,
    cleanupRan := tempDirStillExists }

/-- An environment in which every external call fails (page fetch fails,
downloads fail, no manifest). -/
def envNoop : PipelineEnv :=
  { fetchOk := fun _ => false, titleText := fun _ => none,
    downloadOk := fun _ => false, manifest := fun _ => ManifestFile.missing }

/-- An environment whose downloads all report success but whose mods have
no manifest at all. -/
def envDl : PipelineEnv :=
  { fetchOk := fun _ => false, titleText := fun _ => none,
    downloadOk := fun _ => true, manifest := fun _ => ManifestFile.missing }

/-- The empty pre-run cache. -/
def cacheNone : String → Option String := fun _ => none

/-- Claim C2, counterexample: in the run below the mod-list write fails
(`mods = none`), yet the `finally` block still deletes this run's
temporary workshop directory, so the claim "artifact deletion happens
only after the write succeeded" is false on main.py:529-544. -/
theorem cleanup_runs_despite_write_failure :
    (convert_collection envNoop cacheNone ["1"] false true).mods = none ∧
    (convert_collection envNoop cacheNone ["1"] false true).cleanupRan = true :=
  ⟨rfl, rfl⟩

/-- Claim C2, amended: the cleanup that deletes this run's temporary
workshop directory is a `finally` block and runs unconditionally — both
when the mod-list write succeeds and when it fails — as long as the
temporary directory still exists. -/
theorem cleanup_always_runs (env : PipelineEnv) (cache0 : String → Option String)
    (mod_ids : List String) (writeOk : Bool) :
    (convert_collection env cache0 mod_ids writeOk true).cleanupRan = true := rfl

/-- Each loop iteration increments exactly one of the success/failure
counters. -/
theorem processMod_succ_failed (env : PipelineEnv) (i : Nat) (m : String) (st : RunState) :
    (processMod env i m st).stats.successful + (processMod env i m st).stats.failed
      = st.stats.successful + st.stats.failed + 1 := by
  unfold processMod
  split
  · simp
    omega
  · split <;> simp <;> omega

/-- The total counter is set before the loop and never changed by it. -/
theorem processMod_total (env : PipelineEnv) (i : Nat) (m : String) (st : RunState) :
    (processMod env i m st).stats.total_mods = st.stats.total_mods := by
  unfold processMod
  split
  · simp
  · split <;> simp

/-- The cached counter moves only together with the success counter. -/
theorem processMod_cached_le (env : PipelineEnv) (i : Nat) (m : String) (st : RunState)
    (h : st.stats.cached ≤ st.stats.successful) :
    (processMod env i m st).stats.cached ≤ (processMod env i m st).stats.successful := by
  unfold processMod
  split
  · simp
    omega
  · split <;> simp <;> omega

/-- Statistics bookkeeping of the whole loop: one success-or-failure tick
per processed mod, constant total, and cached bounded by successful. -/
theorem runFrom_stats (env : PipelineEnv) :
    ∀ (ms : List String) (st : RunState) (i : Nat),
      ((runFrom env st i ms).stats.successful + (runFrom env st i ms).stats.failed
        = st.stats.successful + st.stats.failed + ms.length) ∧
      ((runFrom env st i ms).stats.total_mods = st.stats.total_mods) ∧
      (st.stats.cached ≤ st.stats.successful →
        (runFrom env st i ms).stats.cached ≤ (runFrom env st i ms).stats.successful) := by
  intro ms
  induction ms with
  | nil => intro st i; simp [runFrom]
  | cons m ms ih =>
    intro st i
    have hp1 := processMod_succ_failed env i m st
    have hp2 := processMod_total env i m st
    have hr := ih (processMod env i m st) (i + 1)
    rw [runFrom]
    refine ⟨?_, ?_, ?_⟩
    · rw [hr.1, hp1]
      simp
      omega
    · rw [hr.2.1, hp2]
    · intro h
      exact hr.2.2 (processMod_cached_le env i m st h)

/-- Claim C8: throughout a pipeline run the statistics stay internally
consistent — at every observation point (after any number `k` of
processed mods) cached never exceeds successful, and total equals fresh
successes (successful minus cached) plus cached plus failed plus the mods
not yet attempted; at normal completion successful + failed = total
(`ConversionStats` and the loop of `convert_collection`). -/
theorem stats_consistent (env : PipelineEnv) (cache0 : String → Option String)
    (mod_ids : List String) (k : Nat) :
    (midState env cache0 mod_ids k).stats.cached
      ≤ (midState env cache0 mod_ids k).stats.successful ∧
    (midState env cache0 mod_ids k).stats.successful
        + (midState env cache0 mod_ids k).stats.failed
      ≤ (midState env cache0 mod_ids k).stats.total_mods ∧
    (midState env cache0 mod_ids k).stats.total_mods
      = ((midState env cache0 mod_ids k).stats.successful
          - (midState env cache0 mod_ids k).stats.cached)
        + (midState env cache0 mod_ids k).stats.cached
        + (midState env cache0 mod_ids k).stats.failed
        + ((midState env cache0 mod_ids k).stats.total_mods
            - ((midState env cache0 mod_ids k).stats.successful
                + (midState env cache0 mod_ids k).stats.failed)) ∧
    (mod_ids.length ≤ k →
      (midState env cache0 mod_ids k).stats.successful
          + (midState env cache0 mod_ids k).stats.failed
        = (midState env cache0 mod_ids k).stats.total_mods) := by
  have h := runFrom_stats env (mod_ids.take k) (initState cache0 mod_ids) 1
  have h1 := h.1
  have h2 := h.2.1
  have h3 := h.2.2 (by simp [initState])
  have e1 : (initState cache0 mod_ids).stats.successful = 0 := rfl
  have e2 : (initState cache0 mod_ids).stats.failed = 0 := rfl
  have e4 : (initState cache0 mod_ids).stats.total_mods = mod_ids.length := rfl
  rw [e1, e2] at h1
  rw [e4] at h2
  simp only [midState]
  have hlen : (mod_ids.take k).length = min k mod_ids.length := List.length_take k mod_ids
  refine ⟨h3, ?_, ?_, ?_⟩ <;> omega

/-- Claim C8, witness at a concrete completed run. -/
theorem stats_consistent_witness :
    (midState envNoop cacheNone ["a", "b"] 2).stats.successful
        + (midState envNoop cacheNone ["a", "b"] 2).stats.failed
      = (midState envNoop cacheNone ["a", "b"] 2).stats.total_mods :=
  (stats_consistent envNoop cacheNone ["a", "b"] 2).2.2.2 (by decide)

/-- When no usable packageId is found, `Main.extract_package_id` returns
the deterministic `steam.` fallback. -/
theorem extract_fallback_of_missing (env : PipelineEnv) (w : String)
    (h : Main.manifestMissing env w = true) :
    Main.extract_package_id env w = pyLower ("steam." ++ w) := by
  have h2 := h
  unfold Main.manifestMissing at h2
  unfold Main.extract_package_id
  rcases henv : env.manifest w with _ | _ | root
  · simp [henv]
  · simp [henv]
  · simp only [henv] at h2
    simp only [henv]
    rcases hf : root.find? (fun e => e.tag == "packageId") with _ | e
    · simp [hf]
    · simp only [hf] at h2
      simp at h2
      simp [hf, h2]

/-- Claim C6: for every workshop id whose package id cannot be resolved —
whether the download failed, or it succeeded but no manifest/packageId
was usable — the entry appended for it carries the same deterministic
value, the fixed prefix transform `pyLower ("steam." ++ X)` (it is a pure
function of X, hence identical across runs and across both failure
kinds); main.py:423-441 and main.py:510-527. -/
theorem fallback_identifier_deterministic (env : PipelineEnv) (st : RunState)
    (i : Nat) (w : String) (hmiss : truthyStrOpt (st.cache w) = false) :
    (env.downloadOk w = false →
      (processMod env i w st).mods
        = st.mods ++ [{ get_mod_info env w with packageId := pyLower ("steam." ++ w) }]) ∧
    (env.downloadOk w = true → Main.manifestMissing env w = true →
      (processMod env i w st).mods
        = st.mods ++ [{ get_mod_info env w with packageId := pyLower ("steam." ++ w) }]) ∧
    pyLower ("steam." ++ w) = fallbackId w := by
  refine ⟨?_, ?_, rfl⟩
  · intro hdl
    simp [processMod, hmiss, hdl]
  · intro hdl hm
    have he := extract_fallback_of_missing env w hm
    simp [processMod, hmiss, hdl, he]

/-- Claim C6, witness: a failed download appends exactly the fallback
entry. -/
theorem fallback_identifier_witness :
    (processMod envNoop 1 "9" (initState cacheNone ["9"])).mods
      = [{ get_mod_info envNoop "9" with packageId := pyLower ("steam." ++ "9") }] := by
  have h := (fallback_identifier_deterministic envNoop (initState cacheNone ["9"]) 1 "9"
    (by decide)).1 (by decide)
  simpa [initState] using h

/-- Claim C10: `get_mod_info` (main.py:340-362) is total — every outcome,
including a failed metadata fetch, yields a record whose name falls back
to a placeholder — and its packageId field always equals the lowercased
`steam.` fallback, even when the fetch succeeds; a real package id enters
an output entry only when the cached value or the manifest-extraction
result overwrites this field in the pipeline loop. -/
theorem mod_info_total_fallback (env : PipelineEnv) (w : String) (st : RunState) (i : Nat) :
    (get_mod_info env w).packageId = pyLower ("steam." ++ w) ∧
    (get_mod_info env w).id = w ∧
    (env.fetchOk w = false → (get_mod_info env w).name = "Mod " ++ w) ∧
    (truthyStrOpt (st.cache w) = true →
      (processMod env i w st).mods
        = st.mods ++ [{ get_mod_info env w with packageId := (st.cache w).getD "" }]) ∧
    (truthyStrOpt (st.cache w) = false → env.downloadOk w = true →
      (processMod env i w st).mods
        = st.mods ++ [{ get_mod_info env w with packageId := Main.extract_package_id env w }]) := by
  refine ⟨?_, get_mod_info_id env w, ?_, ?_, ?_⟩
  · unfold get_mod_info
    split <;> rfl
  · intro h
    simp [get_mod_info, h]
  · intro h
    simp [processMod, h]
  · intro h1 h2
    simp [processMod, h1, h2]

/-- Claim C10, witness: with a failed fetch the record still exists, with
placeholder name and the fallback packageId. -/
theorem mod_info_total_fallback_witness :
    (get_mod_info envNoop "42").name = "Mod " ++ "42" ∧
    (get_mod_info envNoop "42").packageId = "steam.42" := by
  have h := mod_info_total_fallback envNoop "42" (initState cacheNone []) 1
  exact ⟨h.2.2.1 rfl, h.1.trans (by decide)⟩

/-- One loop iteration cannot touch the cache entry, the download record
or the output identity of a workshop id `w` that is already cached with a
non-empty package id. -/
theorem processMod_cache_safe (env : PipelineEnv) (i : Nat) (m : String) (st : RunState)
    (w p : String) (hp : p ≠ "")
    (hc : st.cache w = some p) (hd : w ∉ st.downloaded)
    (hm : ∀ mi ∈ st.mods, mi.id = w → mi.packageId = p) :
    (processMod env i m st).cache w = some p ∧
    w ∉ (processMod env i m st).downloaded ∧
    (∀ mi ∈ (processMod env i m st).mods, mi.id = w → mi.packageId = p) := by
  by_cases hmw : m = w
  · subst hmw
    have ht : truthyStrOpt (st.cache m) = true := by
      rw [hc]
      simpa [truthyStrOpt] using hp
    refine ⟨?_, ?_, ?_⟩
    · simp [processMod, ht]
      exact hc
    · simp [processMod, ht]
      exact hd
    · intro mi hmi hid
      simp [processMod, ht] at hmi
      rcases hmi with h | h
      · exact hm mi h hid
      · subst h
        simp [hc]
  · have hwm : w ≠ m := fun h => hmw h.symm
    unfold processMod
    split
    · refine ⟨hc, hd, ?_⟩
      intro mi hmi hid
      simp at hmi
      rcases hmi with h | h
      · exact hm mi h hid
      · subst h
        simp [get_mod_info_id] at hid
        exact absurd hid hmw
    · split
      · refine ⟨?_, ?_, ?_⟩
        · simp [beq_iff_eq, hwm, hc]
        · simp
          exact ⟨hd, hwm⟩
        · intro mi hmi hid
          simp at hmi
          rcases hmi with h | h
          · exact hm mi h hid
          · subst h
            simp [get_mod_info_id] at hid
            exact absurd hid hmw
      · refine ⟨hc, ?_, ?_⟩
        · simp
          exact ⟨hd, hwm⟩
        · intro mi hmi hid
          simp at hmi
          rcases hmi with h | h
          · exact hm mi h hid
          · subst h
            simp [get_mod_info_id] at hid
            exact absurd hid hmw

/-- The invariant of `processMod_cache_safe` extends over the whole
loop. -/
theorem runFrom_cache_safe (env : PipelineEnv) (w p : String) (hp : p ≠ "") :
    ∀ (ms : List String) (st : RunState) (i : Nat),
      st.cache w = some p → w ∉ st.downloaded →
      (∀ mi ∈ st.mods, mi.id = w → mi.packageId = p) →
      (runFrom env st i ms).cache w = some p ∧
      w ∉ (runFrom env st i ms).downloaded ∧
      (∀ mi ∈ (runFrom env st i ms).mods, mi.id = w → mi.packageId = p) := by
  intro ms
  induction ms with
  | nil =>
    intro st i hc hd hm
    exact ⟨hc, hd, hm⟩
  | cons m ms ih =>
    intro st i hc hd hm
    have hstep := processMod_cache_safe env i m st w p hp hc hd hm
    rw [runFrom]
    exact ih (processMod env i m st) (i + 1) hstep.1 hstep.2.1 hstep.2.2

/-- A cache whose sole entry is the empty string, as `mod_cache.json` can
legitimately contain (a manifest whose packageId text is all whitespace
strips and lowercases to the empty string before being cached). -/
def cacheEmptyHit : String → Option String := fun w => if w == "1" then some "" else none

/-- Claim C9, counterexample: workshop id 1 has a cache entry before the
run starts (`some ""`), yet the run invokes the downloader for it,
because `if cached_package_id:` (main.py:501) treats the empty string as
a cache miss. -/
theorem cache_hit_claim_false :
    cacheEmptyHit "1" = some "" ∧
    "1" ∈ (runPipeline envDl cacheEmptyHit ["1"]).downloaded := by
  constructor
  · rfl
  · decide

/-- One loop iteration leaves the cache entry of a non-empty-cached id
`w` untouched: processing `w` itself takes the hit branch (no write),
and processing any other id writes only under that other id's key. -/
theorem processMod_cache_preserved (env : PipelineEnv) (i : Nat) (m : String)
    (st : RunState) (w p : String) (hp : p ≠ "") (hc : st.cache w = some p) :
    (processMod env i m st).cache w = some p := by
  by_cases hmw : m = w
  · subst hmw
    have ht : truthyStrOpt (st.cache m) = true := by
      rw [hc]
      simpa [truthyStrOpt] using hp
    simp [processMod, ht]
    exact hc
  · have hwm : w ≠ m := fun h => hmw h.symm
    unfold processMod
    split
    · exact hc
    · split
      · simp [beq_iff_eq, hwm, hc]
      · exact hc

/-- No loop branch ever decreases the resolved-from-cache counter. -/
theorem processMod_cached_monotone (env : PipelineEnv) (i : Nat) (m : String)
    (st : RunState) :
    st.stats.cached ≤ (processMod env i m st).stats.cached := by
  unfold processMod
  split
  · simp
  · split <;> simp

/-- A truthy cache hit is recorded as resolved-from-cache: the iteration
increments both the `cached` and the `successful` counter
(main.py:506-507). -/
theorem processMod_cache_hit_records (env : PipelineEnv) (i : Nat) (w : String)
    (st : RunState) (ht : truthyStrOpt (st.cache w) = true) :
    (processMod env i w st).stats.cached = st.stats.cached + 1 ∧
    (processMod env i w st).stats.successful = st.stats.successful + 1 := by
  constructor <;> simp [processMod, ht]

/-- Over any remaining suffix of the loop, the cached counter grows by at
least one per occurrence of a workshop id whose non-empty cache entry is
in place. -/
theorem runFrom_cached_count (env : PipelineEnv) (w p : String) (hp : p ≠ "") :
    ∀ (ms : List String) (st : RunState) (i : Nat),
      st.cache w = some p →
      st.stats.cached + ms.count w ≤ (runFrom env st i ms).stats.cached := by
  intro ms
  induction ms with
  | nil =>
    intro st i hc
    simp [runFrom]
  | cons m ms ih =>
    intro st i hc
    have hpres := processMod_cache_preserved env i m st w p hp hc
    have hrec := ih (processMod env i m st) (i + 1) hpres
    rw [runFrom]
    by_cases hmw : m = w
    · subst hmw
      have ht : truthyStrOpt (st.cache m) = true := by
        rw [hc]
        simpa [truthyStrOpt] using hp
      have hh := (processMod_cache_hit_records env i m st ht).1
      have hcnt : (m :: ms).count m = ms.count m + 1 := by simp
      rw [hcnt]
      omega
    · have hwm : w ≠ m := fun h => hmw h.symm
      have hmono := processMod_cached_monotone env i m st
      have hcnt : (m :: ms).count w = ms.count w := by
        simp [List.count_cons, hmw, hwm]
      rw [hcnt]
      omega

/-- Claim C9, amended: for every workshop id X whose pre-run cache entry
is a non-empty package id p, the pipeline never invokes the downloader
for X during that run; every output entry for X carries p directly; each
processing of X is recorded as resolved-from-cache — the hit branch
increments the `cached` and `successful` counters (main.py:506-507), so
over the run the cached counter is at least the number of occurrences of
X in the collection; an empty-string cache entry, by contrast, is
treated as a miss. -/
theorem cache_hit_skips_download (env : PipelineEnv) (cache0 : String → Option String)
    (mod_ids : List String) (w p : String) (hc : cache0 w = some p) (hp : p ≠ "") :
    w ∉ (runPipeline env cache0 mod_ids).downloaded ∧
    (∀ mi ∈ (runPipeline env cache0 mod_ids).mods, mi.id = w → mi.packageId = p) ∧
    (∀ (st : RunState) (i : Nat), st.cache w = some p →
      (processMod env i w st).stats.cached = st.stats.cached + 1 ∧
      (processMod env i w st).stats.successful = st.stats.successful + 1) ∧
    mod_ids.count w ≤ (runPipeline env cache0 mod_ids).stats.cached := by
  have h := runFrom_cache_safe env w p hp mod_ids (initState cache0 mod_ids) 1
    hc (by simp [initState]) (by simp [initState])
  refine ⟨h.2.1, h.2.2, ?_, ?_⟩
  · intro st i hcs
    have ht : truthyStrOpt (st.cache w) = true := by
      rw [hcs]
      simpa [truthyStrOpt] using hp
    exact processMod_cache_hit_records env i w st ht
  · have hcount := runFrom_cached_count env w p hp mod_ids (initState cache0 mod_ids) 1 hc
    have e3 : (initState cache0 mod_ids).stats.cached = 0 := rfl
    rw [e3] at hcount
    simpa [runPipeline] using hcount

/-- A cache pre-populated with a real package id for workshop id 5. -/
def cacheGoodHit : String → Option String :=
  fun w => if w == "5" then some "author.mod" else none

/-- Claim C9, witness: a pre-cached id with a non-empty package id is not
downloaded even in an environment that would download everything. -/
theorem cache_hit_skips_download_witness :
    "5" ∉ (runPipeline envDl cacheGoodHit ["5"]).downloaded :=
  (cache_hit_skips_download envDl cacheGoodHit ["5"] "5" "author.mod" rfl (by decide)).1

namespace SteamHandler

/-- `DownloadStatus` (steam_handler.py:26-32). -/
inductive DLStatus where
  | success
  | failed
  | skipped
  | cached
  | timeout
deriving DecidableEq, Repr

/-- Outcome of the steamcmd child process: launching it raised an
exception, or it was polled to completion with the given exit code. -/
inductive ProcOutcome where
  | launchError
  | exits (code : Int)
deriving DecidableEq, Repr

/-- The `error_message` strings of `download_mod`, abstracted to their
constructors (the Python code formats human-readable text around exactly
these data). -/
inductive ErrDetail where
  | stoppedByUser
  | folderNotCreated (path : String)
  | exitCode (code : Int)
  | launchExn
deriving DecidableEq, Repr

/-- `DownloadResult` (steam_handler.py:35-41). -/
structure DownloadResult where
  workshop_id : String
  status : DLStatus
  mod_path : Option String
  error_message : Option ErrDetail
deriving DecidableEq, Repr

/-- `get_mod_path` (steam_handler.py:270-284): the canonical artifact
directory `download_dir/steamapps/workshop/content/294100/{id}`. -/
def standard_path (d w : String) : String :=
  d ++ "/steamapps/workshop/content/294100/" ++ w

/-- The `downloads` layout checked by
`_find_mod_in_alternate_locations`. -/
def downloads_path (d w : String) : String :=
  d ++ "/steamapps/workshop/downloads/294100/" ++ w

/-- The layout without the `steamapps` segment (`content` variant). -/
def temp_path1 (d w : String) : String := d ++ "/workshop/content/294100/" ++ w

/-- The layout without the `steamapps` segment (`downloads` variant). -/
def temp_path2 (d w : String) : String := d ++ "/workshop/downloads/294100/" ++ w

/-- A bare `{id}` directory directly under the download dir. -/
def simple_path (d w : String) : String := d ++ "/" ++ w

/-- One `if exists(p) and listdir(p) and p not in found_paths: append`
step of `_find_mod_in_alternate_locations`; `fs p` stands for
"`p` exists and is non-empty". -/
def altStep (fs : String → Bool) (p : String) (l : List String) : List String :=
  if fs p && !(l.contains p) then l ++ [p] else l

/-- `_find_mod_in_alternate_locations` (steam_handler.py:480-532): probe
the five known layouts in order (the first two without a membership
check, as in the source) and return every hit. -/
def find_mod_in_alternate_locations (fs : String → Bool) (d w : String) : List String :=
  altStep fs (simple_path d w)
    (altStep fs (temp_path2 d w)
      (altStep fs (temp_path1 d w)
        ((if fs (standard_path d w) then [standard_path d w] else []) ++
          (if fs (downloads_path d w) then [downloads_path d w] else []))))

/-- `download_mod` (steam_handler.py:286-407): honor the stop flag; a
process-launch exception is a failure; on exit code 0 verify the
canonical path, then the alternate layouts, before concluding failure;
on a non-zero exit code fail with that code in the error detail. -/
def download_mod (fs : String → Bool) (d : String) (stop : Bool)
    (proc : ProcOutcome) (w : String) : DownloadResult :=
  if stop then
    { workshop_id := w, status := .skipped, mod_path := none,
      error_message := some .stoppedByUser }
  else
    match proc with
    | .launchError =>
      { workshop_id := w, status := .failed, mod_path := none,
        error_message := some .launchExn }
    | .exits c =>
      if c = 0 then
        if fs (standard_path d w) then
          { workshop_id := w, status := .success,
            mod_path := some (standard_path d w), error_message := none }
        else
          match find_mod_in_alternate_locations fs d w with
          | p :: _ =>
            { workshop_id := w, status := .success, mod_path := some p,
              error_message := none }
          | [] =>
            { workshop_id := w, status := .failed, mod_path := none,
              error_message := some (.folderNotCreated (standard_path d w)) }
      else
        { workshop_id := w, status := .failed, mod_path := none,
          error_message := some (.exitCode c) }

/-- The tag/text predicate of `SteamHandler.extract_package_id`
(steam_handler.py:643-647): direct child whose lowercased tag is
`packageid` and whose text is truthy. -/
def matchesPackageId (e : XElem) : Bool :=
  pyLower e.tag == "packageid" && truthyStrOpt e.text

/-- `SteamHandler.extract_package_id` (steam_handler.py:571-654): absent
mod directory, missing `About.xml` or a parse failure all yield `None`;
otherwise the first child matching `matchesPackageId` yields its text
stripped and lowercased, and `None` results when no child matches. -/
def extract_package_id (dirExists : Bool) (mf : ManifestFile) : Option String :=
  if dirExists then
    match mf with
    | .missing => none
    | .unparsable => none
    | .parsed root =>
      match root.find? matchesPackageId with
      | some e => some (pyLower (pyStrip (e.text.getD "")))
      | none => none
  else none

end SteamHandler

namespace XmlProcessor

/-- The `for elem in root:` scan of `XmlProcessor.extract_package_id`
(xml_processor.py:122-132): successive assignment means the last child
whose lowercased tag is `packageid` wins, its raw text (possibly `None`)
being kept. -/
def scan_package_id (root : List XElem) : Option String :=
  root.foldl (fun acc e => if pyLower e.tag == "packageid" then e.text else acc) none

/-- `XmlProcessor.extract_package_id` (xml_processor.py:91-168), projected
onto the package id of the `ModInfo` it returns: missing or unparsable
`About.xml` yields `None`; a falsy scanned value yields `None`
(`if not package_id: return None`); otherwise the value is stripped and
lowercased. -/
def extract_package_id (mf : ManifestFile) : Option String :=
  match mf with
  | .missing => none
  | .unparsable => none
  | .parsed root =>
    let pid := scan_package_id root
    if truthyStrOpt pid then some (pyLower (pyStrip (pid.getD ""))) else none

/-- A scan over children none of whose tags is `packageid` leaves the
accumulator unchanged. -/
theorem scan_acc_of_no_match :
    ∀ (root : List XElem) (acc : Option String),
      (∀ x ∈ root, (pyLower x.tag == "packageid") = false) →
      root.foldl (fun acc e => if pyLower e.tag == "packageid" then e.text else acc) acc
        = acc := by
  intro root
  induction root with
  | nil => intro acc h; rfl
  | cons x xs ih =>
    intro acc h
    have hx := h x (List.mem_cons_self x xs)
    rw [List.foldl_cons]
    rw [if_neg (by simp [hx])]
    exact ih acc (fun y hy => h y (List.mem_cons_of_mem x hy))

end XmlProcessor

/-- A manifest whose only child carries the mixed-case tag `PackageId`. -/
def rootMixedTag : List XElem := [{ tag := "PackageId", text := some "  Author.Mod  " }]

/-- An environment serving `rootMixedTag` as every mod's manifest. -/
def envMixedTag : PipelineEnv :=
  { fetchOk := fun _ => false, titleText := fun _ => none,
    downloadOk := fun _ => true, manifest := fun _ => ManifestFile.parsed rootMixedTag }

/-- Claim C4, counterexample: the extraction the pipeline actually calls,
`SteamCollectionToRimPy.extract_package_id` (main.py:423-441, a cited
implementation of manifest extraction), is neither case-insensitive nor
absent-returning: on a manifest whose packageId child is tagged
`PackageId`, `root.find('packageId')` misses the field and the function
returns the `steam.` fallback instead of the normalized value
`author.mod` that the case-insensitive library reader extracts from the
very same manifest; and on a missing manifest it likewise returns the
fallback string rather than absent. -/
theorem manifest_extraction_claim_false :
    Main.extract_package_id envMixedTag "123" = "steam.123" ∧
    Main.extract_package_id envMixedTag "123" ≠ "author.mod" ∧
    SteamHandler.extract_package_id true (ManifestFile.parsed rootMixedTag)
      = some "author.mod" ∧
    Main.extract_package_id envNoop "123" = "steam.123" := by
  refine ⟨?_, ?_, ?_, ?_⟩ <;> decide

/-- Claim C4, amended: the two dedicated manifest readers —
`SteamHandler.extract_package_id` (steam_handler.py:571-654) and
`XmlProcessor.extract_package_id` (xml_processor.py:91-168) — locate the
`packageId` field case-insensitively, return its value stripped of
whitespace and lowercased, and return absent — not an error — when the
mod directory or manifest is missing, when no `packageId` field exists,
or when the manifest is malformed; the inlined variant the pipeline
calls, `SteamCollectionToRimPy.extract_package_id` (main.py:423-441),
instead matches the tag case-sensitively (`root.find('packageId')`) and
returns the deterministic `steam.` fallback string — never absent — in
every failure case. -/
theorem manifest_extraction_behavior (d : Bool) (root : List XElem) (e : XElem)
    (env : PipelineEnv) (mod_id : String) :
    (SteamHandler.extract_package_id d ManifestFile.missing = none) ∧
    (SteamHandler.extract_package_id d ManifestFile.unparsable = none) ∧
    (SteamHandler.extract_package_id false (ManifestFile.parsed root) = none) ∧
    ((∀ x ∈ root, SteamHandler.matchesPackageId x = false) →
      SteamHandler.extract_package_id true (ManifestFile.parsed root) = none) ∧
    (root.find? SteamHandler.matchesPackageId = some e →
      SteamHandler.extract_package_id true (ManifestFile.parsed root)
        = some (pyLower (pyStrip (e.text.getD "")))) ∧
    (∀ (tagA tagB : String) (t : Option String), pyLower tagA = pyLower tagB →
      SteamHandler.matchesPackageId ⟨tagA, t⟩ = SteamHandler.matchesPackageId ⟨tagB, t⟩) ∧
    (XmlProcessor.extract_package_id ManifestFile.missing = none) ∧
    (XmlProcessor.extract_package_id ManifestFile.unparsable = none) ∧
    ((∀ x ∈ root, (pyLower x.tag == "packageid") = false) →
      XmlProcessor.extract_package_id (ManifestFile.parsed root) = none) ∧
    (env.manifest mod_id = ManifestFile.missing →
      Main.extract_package_id env mod_id = pyLower ("steam." ++ mod_id)) ∧
    (env.manifest mod_id = ManifestFile.unparsable →
      Main.extract_package_id env mod_id = pyLower ("steam." ++ mod_id)) ∧
    (env.manifest mod_id = ManifestFile.parsed root →
      root.find? (fun e2 => e2.tag == "packageId") = none →
      Main.extract_package_id env mod_id = pyLower ("steam." ++ mod_id)) := by
  refine ⟨by cases d <;> rfl, by cases d <;> rfl, rfl, ?_, ?_, ?_, rfl, rfl, ?_, ?_, ?_, ?_⟩
  · intro h
    have hf : root.find? SteamHandler.matchesPackageId = none := by
      rw [List.find?_eq_none]
      intro x hx
      simp [h x hx]
    simp [SteamHandler.extract_package_id, hf]
  · intro hf
    simp [SteamHandler.extract_package_id, hf]
  · intro tagA tagB t h
    simp [SteamHandler.matchesPackageId, h]
  · intro h
    have hs : XmlProcessor.scan_package_id root = none :=
      XmlProcessor.scan_acc_of_no_match root none h
    simp [XmlProcessor.extract_package_id, hs, truthyStrOpt]
  · intro h
    simp [Main.extract_package_id, h]
  · intro h
    simp [Main.extract_package_id, h]
  · intro h hf
    simp [Main.extract_package_id, h, hf]

/-- A manifest whose root has one mixed-case `packageId` child. -/
def rootMixedCase : List XElem := [{ tag := "PACKAGEID", text := some "  My.Mod  " }]

/-- Claim C4, witness: the mixed-case tag is found by the library reader
and its padded text is normalized. -/
theorem manifest_extraction_behavior_witness :
    SteamHandler.extract_package_id true (ManifestFile.parsed rootMixedCase)
      = some "my.mod" := by
  have h := (manifest_extraction_behavior true rootMixedCase
    { tag := "PACKAGEID", text := some "  My.Mod  " } envNoop "1").2.2.2.2.1 (by decide)
  exact h.trans (by decide)

namespace SteamHandler

/-- Appending via `altStep` never empties a non-empty accumulator. -/
theorem altStep_ne_of_ne (fs : String → Bool) (p : String) (l : List String)
    (h : l ≠ []) : altStep fs p l ≠ [] := by
  unfold altStep
  split
  · simp
  · exact h

/-- If the probed path is a hit, the accumulator is non-empty after the
step (either the path is appended, or it was already a member). -/
theorem altStep_ne_of_hit (fs : String → Bool) (p : String) (l : List String)
    (h : fs p = true) : altStep fs p l ≠ [] := by
  unfold altStep
  cases hc : l.contains p with
  | false => simp [h, hc]
  | true =>
    have hl : l ≠ [] := by
      cases l with
      | nil => simp at hc
      | cons a as => simp
    simp [h]
    exact hl

/-- The alternate-location search finds something exactly when at least
one of the five known layouts is a non-empty directory. -/
theorem find_alt_ne_nil_iff (fs : String → Bool) (d w : String) :
    find_mod_in_alternate_locations fs d w ≠ [] ↔
      (fs (standard_path d w) = true ∨ fs (downloads_path d w) = true ∨
       fs (temp_path1 d w) = true ∨ fs (temp_path2 d w) = true ∨
       fs (simple_path d w) = true) := by
  constructor
  · intro h
    by_contra hall
    push_neg at hall
    obtain ⟨h1, h2, h3, h4, h5⟩ := hall
    simp only [ne_eq, Bool.not_eq_true] at h1 h2 h3 h4 h5
    simp [find_mod_in_alternate_locations, altStep, h1, h2, h3, h4, h5] at h
  · intro h
    rcases h with h | h | h | h | h
    · apply altStep_ne_of_ne
      apply altStep_ne_of_ne
      apply altStep_ne_of_ne
      simp [h]
    · apply altStep_ne_of_ne
      apply altStep_ne_of_ne
      apply altStep_ne_of_ne
      simp [h]
    · apply altStep_ne_of_ne
      apply altStep_ne_of_ne
      exact altStep_ne_of_hit fs _ _ h
    · apply altStep_ne_of_ne
      exact altStep_ne_of_hit fs _ _ h
    · exact altStep_ne_of_hit fs _ _ h

end SteamHandler

/-- Claim C5: with no stop request, `download_mod`
(steam_handler.py:286-407) returns status Success — with an artifact
path — exactly when the steamcmd process exits with code 0 and a
non-empty artifact directory exists at the canonical path or at one of
the fixed alternate layouts; on a non-zero exit code it returns Failed
carrying that exit code in the error detail. -/
theorem download_status_correct (fs : String → Bool) (d w : String)
    (proc : SteamHandler.ProcOutcome) :
    ((SteamHandler.download_mod fs d false proc w).status = SteamHandler.DLStatus.success ↔
      (proc = SteamHandler.ProcOutcome.exits 0 ∧
        (fs (SteamHandler.standard_path d w) = true ∨
         fs (SteamHandler.downloads_path d w) = true ∨
         fs (SteamHandler.temp_path1 d w) = true ∨
         fs (SteamHandler.temp_path2 d w) = true ∨
         fs (SteamHandler.simple_path d w) = true))) ∧
    ((SteamHandler.download_mod fs d false proc w).status = SteamHandler.DLStatus.success →
      (SteamHandler.download_mod fs d false proc w).mod_path ≠ none) ∧
    (∀ c : Int, c ≠ 0 →
      (SteamHandler.download_mod fs d false (SteamHandler.ProcOutcome.exits c) w).status
          = SteamHandler.DLStatus.failed ∧
      (SteamHandler.download_mod fs d false (SteamHandler.ProcOutcome.exits c) w).error_message
          = some (SteamHandler.ErrDetail.exitCode c)) := by
  refine ⟨?_, ?_, ?_⟩
  · cases proc with
    | launchError => simp [SteamHandler.download_mod]
    | exits c =>
      by_cases hc : c = 0
      · subst hc
        by_cases hstd : fs (SteamHandler.standard_path d w) = true
        · simp [SteamHandler.download_mod, hstd]
        · rcases halt : SteamHandler.find_mod_in_alternate_locations fs d w with _ | ⟨ph, pt⟩
          · have hdisj : ¬(fs (SteamHandler.standard_path d w) = true ∨
                fs (SteamHandler.downloads_path d w) = true ∨
                fs (SteamHandler.temp_path1 d w) = true ∨
                fs (SteamHandler.temp_path2 d w) = true ∨
                fs (SteamHandler.simple_path d w) = true) := by
              intro hor
              exact (SteamHandler.find_alt_ne_nil_iff fs d w).mpr hor halt
            push_neg at hdisj
            obtain ⟨g1, g2, g3, g4, g5⟩ := hdisj
            simp only [ne_eq, Bool.not_eq_true] at g1 g2 g3 g4 g5
            simp [SteamHandler.download_mod, hstd, halt, g2, g3, g4, g5]
          · have hdisj : fs (SteamHandler.standard_path d w) = true ∨
                fs (SteamHandler.downloads_path d w) = true ∨
                fs (SteamHandler.temp_path1 d w) = true ∨
                fs (SteamHandler.temp_path2 d w) = true ∨
                fs (SteamHandler.simple_path d w) = true := by
              apply (SteamHandler.find_alt_ne_nil_iff fs d w).mp
              rw [halt]
              simp
            simp [SteamHandler.download_mod, hstd, halt]
            rcases hdisj with h | h
            · exact absurd h hstd
            · exact h
      · simp [SteamHandler.download_mod, hc]
  · intro hs
    cases proc with
    | launchError => simp [SteamHandler.download_mod] at hs
    | exits c =>
      by_cases hc : c = 0
      · subst hc
        by_cases hstd : fs (SteamHandler.standard_path d w) = true
        · simp [SteamHandler.download_mod, hstd]
        · rcases halt : SteamHandler.find_mod_in_alternate_locations fs d w with _ | ⟨ph, pt⟩
          · simp [SteamHandler.download_mod, hstd, halt] at hs
          · simp [SteamHandler.download_mod, hstd, halt]
      · simp [SteamHandler.download_mod, hc] at hs
  · intro c hc
    refine ⟨?_, ?_⟩ <;> simp [SteamHandler.download_mod, hc]

/-- A filesystem on which only the canonical artifact directory of
workshop id 7 under download dir `D` exists and is non-empty. -/
def fsOnlyStd : String → Bool :=
  fun p => p == SteamHandler.standard_path "D" "7"

/-- Claim C5, witness: a non-zero exit code yields Failed with the code
in the error detail. -/
theorem download_status_correct_witness :
    (SteamHandler.download_mod fsOnlyStd "D" false (SteamHandler.ProcOutcome.exits 3) "7").status
        = SteamHandler.DLStatus.failed ∧
    (SteamHandler.download_mod fsOnlyStd "D" false
        (SteamHandler.ProcOutcome.exits 3) "7").error_message
        = some (SteamHandler.ErrDetail.exitCode 3) :=
  (download_status_correct fsOnlyStd "D" "7" (SteamHandler.ProcOutcome.exits 3)).2.2 3 (by decide)

namespace Database

/-- One row of the `mods` table (database.py:45-52); the `processed_date`
timestamp is abstracted to a tick counter. -/
structure MRow where
  workshop_id : String
  package_id : String
  processed_date : Nat
  collection_url : Option String
deriving DecidableEq, Repr

/-- `ModDatabase.get_package_id` (database.py:62-79):
`SELECT package_id FROM mods WHERE workshop_id = ?` on a table whose
primary key makes the matching row unique. -/
def get_package_id (t : List MRow) (w : String) : Option String :=
  (t.find? (fun r => r.workshop_id == w)).map (fun r => r.package_id)

/-- `ModDatabase.add_mod` (database.py:81-100): `INSERT OR REPLACE`
deletes any row with the same primary key and inserts the new row. -/
def add_mod (t : List MRow) (w p : String) (date : Nat) (url : Option String) : List MRow :=
  { workshop_id := w, package_id := p, processed_date := date, collection_url := url } ::
    t.filter (fun r => r.workshop_id != w)

/-- Upserting strips every row keyed by the same workshop id before
inserting, so the rows under other keys are untouched and re-upserts
replace. -/
theorem filter_add_mod (t : List MRow) (w p : String) (date : Nat) (url : Option String) :
    (add_mod t w p date url).filter (fun r => r.workshop_id != w)
      = t.filter (fun r => r.workshop_id != w) := by
  simp [add_mod, List.filter_filter]

end Database

/-- Claim C7: the cache keeps at most one record per workshop id — after
`add_mod w p` a lookup of `w` returns `p`; a subsequent `add_mod w q`
leaves the record count unchanged and makes the lookup return `q` (last
write wins); re-adding the same package id also leaves the cardinality
unchanged; and the upserted table holds exactly one row keyed `w`
(`ModDatabase.add_mod` / `_init_database`, database.py:39-100). -/
theorem cache_upsert_semantics (t : List Database.MRow) (w p q : String)
    (d1 d2 : Nat) (u1 u2 : Option String) :
    Database.get_package_id (Database.add_mod t w p d1 u1) w = some p ∧
    (Database.add_mod (Database.add_mod t w p d1 u1) w q d2 u2).length
      = (Database.add_mod t w p d1 u1).length ∧
    Database.get_package_id (Database.add_mod (Database.add_mod t w p d1 u1) w q d2 u2) w
      = some q ∧
    (Database.add_mod (Database.add_mod t w p d1 u1) w p d2 u2).length
      = (Database.add_mod t w p d1 u1).length ∧
    ((Database.add_mod t w p d1 u1).filter (fun r => r.workshop_id == w)).length = 1 := by
  refine ⟨?_, ?_, ?_, ?_, ?_⟩
  · simp [Database.get_package_id, Database.add_mod]
  · simp [Database.add_mod]
  · simp [Database.get_package_id, Database.add_mod]
  · simp [Database.add_mod]
  · simp [Database.add_mod, List.filter_filter]

end ModBridge
